import Mathlib

/-!
Verification development for the terra-package repository
(`terra_package/core.py`, `terra_package/metrics.py`, `terra_package/utils.py`).

The tabular data handled by the package is embedded shallowly: a pandas
DataFrame row becomes a `Row` structure, a DataFrame becomes a `List Row`,
and a `TerraDataset` becomes a structure holding the row list together with
the optional `simulation` attribute that `simulate_shock` attaches.

Numeric columns are embedded as exact rationals (`ℚ`).  The only genuinely
real-valued operation in the source is the CES price index
`P = S ** (1 / (1 - sigma))`, a fractional power, which is embedded with
`Real.rpow`; every other arithmetic step stays inside `ℚ`.  Python/pandas
float division by zero produces `inf`/`NaN` rather than raising; in the
embedding, field division by zero is Lean's `x / 0 = 0` convention, and
theorems about numeric behaviour carry hypotheses that keep the relevant
denominators nonzero, i.e. they speak about the domain on which the source
computes ordinary finite numbers.

Exceptions raised by the Python code are embedded with `Except PyError`.
-/

namespace Terra

/-- A Python exception, as far as this package raises them. -/
inductive PyError where
  | valueError (msg : String) : PyError
  | attributeError (msg : String) : PyError
deriving DecidableEq, Repr

/-- One row of a validated TERRA dataset.  The loader guarantees the columns
`source, target, period, product, value` (and `value2` when requested);
`analyze_basket` and `analyze_network` additionally read a user-supplied
`weight` column, which is embedded as always present. -/
structure Row where
  source : String
  target : String
  period : String
  product : String
  value : ℚ
  value2 : ℚ
  weight : ℚ
deriving DecidableEq, Repr

/-- One output row of the shock simulation (the columns selected at the end of
`simulate_shock`).  The quantities `q_base`, `q_new`, `q_delta` involve the
CES price index and therefore live in `ℝ`. -/
structure ShockRow where
  source : String
  target : String
  period : String
  product : String
  value : ℚ
  value2 : ℚ
  price : ℚ
  alpha : ℚ
  share_base : ℚ
  share_post : ℚ
  q_base : ℝ
  q_new : ℝ
  q_delta : ℝ

/-- The `TerraDataset` object: the validated table plus the `simulation`
attribute that `simulate_shock` sets on the object it returns. -/
structure TerraDataset where
  data : List Row
  simulation : Option (List ShockRow)

/-! ## Metrics engine (`metrics.py`, `calculate_node_metrics`)

A NetworkX `DiGraph` is embedded as a list of directed edges; an edge carries
the raw `qty` attribute (`d.get("qty", 0)`, so a missing attribute is the
rational `0`).  The package only ever builds directed graphs
(`nx.DiGraph()` in `analyze_network`), so the directed branch of
`calculate_node_metrics` is the one embedded here. -/

/-- A directed edge `u → v` with its raw `qty` attribute. -/
structure GEdge where
  u : String
  v : String
  qty : ℚ
deriving DecidableEq, Repr

/-- Append a node if it has not been seen yet (NetworkX keeps nodes in
insertion order). -/
def addNode (ns : List String) (n : String) : List String :=
  if n ∈ ns then ns else ns ++ [n]

/-- `G.nodes()`: every endpoint of every edge, in insertion order, once. -/
def nodesOf (G : List GEdge) : List String :=
  G.foldl (fun ns e => addNode (addNode ns e.u) e.v) []

/-- `total_weight = sum(d.get("qty", 0) for _, _, d in G.edges(data=True))`. -/
def totalQty (G : List GEdge) : ℚ :=
  (G.map GEdge.qty).sum

/-- The normalized `weight` attribute written onto each edge:
`d["weight"] = (d.get("qty", 0) / total_weight) if total_weight > 0 else 0`. -/
def wt (G : List GEdge) (e : GEdge) : ℚ :=
  if 0 < totalQty G then e.qty / totalQty G else 0

/-- Weighted in-degree of a node: `dict(G.in_degree(weight="weight"))`. -/
def inDeg (G : List GEdge) (n : String) : ℚ :=
  ((G.filter (fun e => e.v == n)).map (wt G)).sum

/-- Weighted out-degree of a node: `dict(G.out_degree(weight="weight"))`. -/
def outDeg (G : List GEdge) (n : String) : ℚ :=
  ((G.filter (fun e => e.u == n)).map (wt G)).sum

/-- Weighted total degree: for a NetworkX `DiGraph`,
`G.degree(weight="weight")` is the sum of in- and out-degree. -/
def deg (G : List GEdge) (n : String) : ℚ :=
  inDeg G n + outDeg G n

/-- Dictionary lookup `d[n]` on an association list (Python dict access;
the keys put into these dicts always cover every node, so the `0` default
is never exercised by the code paths embedded here). -/
def dget (d : List (String × ℚ)) (n : String) : ℚ :=
  match d.find? (fun kv => kv.1 == n) with
  | some kv => kv.2
  | none => 0

/-- `deg = dict(G.degree(weight="weight"))`. -/
def degDict (G : List GEdge) : List (String × ℚ) :=
  (nodesOf G).map (fun n => (n, deg G n))

/-- `in_deg = dict(G.in_degree(weight="weight"))`. -/
def inDegDict (G : List GEdge) : List (String × ℚ) :=
  (nodesOf G).map (fun n => (n, inDeg G n))

/-- `out_deg = dict(G.out_degree(weight="weight"))`. -/
def outDegDict (G : List GEdge) : List (String × ℚ) :=
  (nodesOf G).map (fun n => (n, outDeg G n))

/-- The vulnerability dict built from the in-degree dict:
`vulnerability[k] = 1 - v if v != 0 else 0`. -/
def vulnDict (G : List GEdge) : List (String × ℚ) :=
  (inDegDict G).map (fun kv => (kv.1, if kv.2 ≠ 0 then 1 - kv.2 else 0))

/-- The `inv_weight` distance attribute:
`1/d["weight"] if d.get("weight", 0) > 0 else 1e9999`.
The Python float literal `1e9999` exceeds the largest IEEE-754 double
(about `1.797e308`), so the value it denotes is positive infinity; the
sentinel is therefore embedded as `⊤` in `WithTop ℚ`. -/
def invW (G : List GEdge) (e : GEdge) : WithTop ℚ :=
  if 0 < wt G e then ((1 / wt G e : ℚ) : WithTop ℚ) else ⊤

/-- One row of the metrics DataFrame.  Closeness, betweenness and
distinctiveness are produced by external library algorithms
(NetworkX, the `distinctiveness` package); following the spec they are
treated as injected collaborator functions, so their values are carried
through from function parameters. -/
structure MetricRow where
  period : String
  node : String
  degree : ℚ
  out_degree : ℚ
  in_degree : ℚ
  vulnerability : ℚ
  closeness : ℚ
  betweenness : ℚ
  distinctiveness : ℚ
deriving DecidableEq, Repr

/-- `calculate_node_metrics(G, period)` (directed case), parametrized by the
external centrality collaborators `clos`, `betw`, `disti`. -/
def calculate_node_metrics (clos betw disti : String → ℚ)
    (G : List GEdge) (period : String) : List MetricRow :=
  (nodesOf G).map (fun n =>
    { period := period
      node := n
      degree := dget (degDict G) n
      out_degree := dget (outDegDict G) n
      in_degree := dget (inDegDict G) n
      vulnerability := dget (vulnDict G) n
      closeness := clos n
      betweenness := betw n
      distinctiveness := disti n })

/-! ## Basket analyzer (`core.py`, `analyze_basket`)

`df.groupby(['period'], as_index=False)['weight'].sum()` returns one row per
distinct period with the summed weights, with the group keys in ascending
order (pandas groups with `sort=True` by default); the later
`sort_values(by=['period'], ascending=True)` is then a no-op re-sort.  The
groupby is embedded as a left fold inserting each `(period, weight)` pair
into an ordered association list, which produces exactly that
sorted-and-summed table.  The period-over-period variation divides by the
lagged weight; pandas `shift(1)` makes the first row's lag `NaN`, so the
first variation is `NaN`, embedded as `Option ℚ` with `none` for `NaN`. -/

/-- Insert a `(period, weight)` pair into an ordered association list,
adding the weight into an existing entry with the same key. -/
def insertAdd : List (String × ℚ) → String × ℚ → List (String × ℚ)
  | [], x => [x]
  | kv :: t, x =>
    if x.1 = kv.1 then (kv.1, kv.2 + x.2) :: t
    else if x.1 < kv.1 then x :: kv :: t
    else kv :: insertAdd t x

/-- Pandas `groupby` on the first component, summing the second:
sorted unique keys with aggregated values. -/
def groupbySum (l : List (String × ℚ)) : List (String × ℚ) :=
  l.foldl insertAdd []

/-- The summed value a key contributes to a pair list (for a list with
unique keys this is the value stored at the key, or `0`). -/
def valAt (l : List (String × ℚ)) (p : String) : ℚ :=
  ((l.filter (fun kv => kv.1 == p)).map Prod.snd).sum

/-- Tail of the variation computation: each row's value is
`(weight - previous_weight) / previous_weight`. -/
def varAux (prev : ℚ) : List (String × ℚ) → List (String × Option ℚ)
  | [] => []
  | (p, w) :: t => (p, some ((w - prev) / prev)) :: varAux w t

/-- `df["weight"] = (df["weight"] - df["weight"].shift(1)) / df["weight"].shift(1)`:
the first row's lag is `NaN` (`none`), later rows get the relative variation. -/
def variation : List (String × ℚ) → List (String × Option ℚ)
  | [] => []
  | (p, w) :: t => (p, none) :: varAux w t

/-- The in-place direction swap
`df.loc[:, ['source', 'target']] = df[['target', 'source']].values`. -/
def swapRow (r : Row) : Row :=
  { r with source := r.target, target := r.source }

/-- The filter pipeline of `analyze_basket` after the direction swap:
keep rows with `source == country`, then optionally `product`, then
optionally `target == partner`. -/
def basketRows (rows : List Row) (country : String)
    (partner product : Option String) (direction : String) : List Row :=
  let swapped := if direction = "I" then rows.map swapRow else rows
  let d1 := swapped.filter (fun r => r.source == country)
  let d2 := match product with
    | some p => d1.filter (fun r => r.product == p)
    | none => d1
  match partner with
  | some q => d2.filter (fun r => r.target == q)
  | none => d2

/-- `analyze_basket(df, country, partner, product, var, direction)`.

The function works on `df.data` itself without taking a copy, so the
direction swap for `direction="I"` happens on the dataset's stored table;
the embedding returns the dataset state after the call alongside the
result.  Each filter stage raises a `ValueError` when it empties the
working set.  The result rows are `(period, weight)` pairs, with the weight
an `Option ℚ` because the variation of the first period is `NaN`. -/
def analyze_basket (ds : TerraDataset) (country : String)
    (partner product : Option String) (var : Bool) (direction : String) :
    Except PyError (List (String × Option ℚ)) × TerraDataset :=
  if direction ≠ "E" ∧ direction ≠ "I" then
    (.error (.valueError "Direction must be E for exports or I for imports."), ds)
  else
    let swapped := if direction = "I" then ds.data.map swapRow else ds.data
    let ds1 : TerraDataset := { ds with data := swapped }
    let d1 : List Row := swapped.filter (fun r => r.source == country)
    if d1.isEmpty then
      (.error (.valueError ("Country " ++ country ++ " in direction " ++ direction ++ " is not present in the dataset.")), ds1)
    else
      let d2 : List Row := match product with
        | some p => d1.filter (fun r => r.product == p)
        | none => d1
      if d2.isEmpty then
        (.error (.valueError ("Product in direction " ++ direction ++ " is not present in the dataset.")), ds1)
      else
        let d3 : List Row := match partner with
          | some q => d2.filter (fun r => r.target == q)
          | none => d2
        if d3.isEmpty then
          (.error (.valueError ("Partner in direction " ++ direction ++ " is not present in the dataset.")), ds1)
        else
          let agg : List (String × ℚ) := groupbySum (d3.map (fun r => (r.period, r.weight)))
          if var then
            (.ok (variation (groupbySum agg)), ds1)
          else
            (.ok (agg.map (fun kv => (kv.1, some kv.2))), ds1)

/-! ## Shock simulator (`core.py`, `simulate_shock`)

`simulate_shock` first copies the table (`data = df.data.copy()`), selects
the period, handles the `product` argument, and checks supplier diversity;
this selection stage is embedded as `shock_select`.  The numeric CES stage
(`core.py` lines 182-206) is embedded as per-row functions over the
importer's basket.

Two faithfulness notes:
* when `product` is given, the source checks `df.empty` where `df` is the
  `TerraDataset` object, which has no attribute `empty`; evaluating the
  condition therefore raises `AttributeError` unconditionally;
* when `product` is omitted, the source computes
  `data.groupby(["source","target","product"], as_index=False)[["value","value2"]].sum()`
  and discards the result (the expression is not assigned), embedded as a
  dead let-binding. -/

/-- The first-occurrence list of `(source, target, product)` keys. -/
def stpKeys (rows : List Row) : List (String × String × String) :=
  rows.foldl (fun ks r =>
    let k := (r.source, r.target, r.product)
    if k ∈ ks then ks else ks ++ [k]) []

/-- `data.groupby(["source","target","product"], as_index=False)[["value","value2"]].sum()`:
one output row per distinct key with both value columns summed.  In
`simulate_shock` the result of this expression is discarded. -/
def aggregateProducts (rows : List Row) : List (String × String × String × ℚ × ℚ) :=
  (stpKeys rows).map (fun k =>
    (k.1, k.2.1, k.2.2,
      ((rows.filter (fun r => (r.source, r.target, r.product) == k)).map Row.value).sum,
      ((rows.filter (fun r => (r.source, r.target, r.product) == k)).map Row.value2).sum))

/-- The selection/validation stage of `simulate_shock` (`core.py` 166-181),
returning the period-selected rows on success. -/
def shock_select (rows : List Row) (country_from country_to period : String)
    (product : Option String) : Except PyError (List Row) :=
  let data := rows.filter (fun r => r.period == period)
  if data.isEmpty then
    .error (.valueError ("Period " ++ period ++ " is not present in the dataset."))
  else
    match product with
    | some p =>
      let _ := data.filter (fun r => r.product == p)
      -- the source now evaluates `if df.empty:` on the TerraDataset object,
      -- which has no attribute `empty`: AttributeError, unconditionally
      .error (.attributeError "TerraDataset object has no attribute empty")
    | none =>
      let _ := aggregateProducts data
      if (data.filter (fun r => r.source != country_from && r.target == country_to)).isEmpty then
        .error (.valueError ("Simulation not applicable, since there is only " ++ country_from ++ " as supplier for " ++ country_to ++ "."))
      else
        .ok data

/-- `df_shock["price"] = df_shock["value"] / df_shock["value2"]`. -/
def price (r : Row) : ℚ :=
  r.value / r.value2

/-- Unnormalized CES preference weight
`df_shock["alpha"] = df_shock["value2"] * df_shock["price"]**(sigma - 1)`. -/
def alphaRaw (σ : ℤ) (r : Row) : ℚ :=
  r.value2 * price r ^ (σ - 1)

/-- `df_shock["alpha"].sum()` before normalization. -/
def alphaSum (rows : List Row) (σ : ℤ) : ℚ :=
  (rows.map (alphaRaw σ)).sum

/-- Normalized CES preference weight
`df_shock["alpha"] = df_shock["alpha"] / df_shock["alpha"].sum()`. -/
def alpha (rows : List Row) (σ : ℤ) (r : Row) : ℚ :=
  alphaRaw σ r / alphaSum rows σ

/-- `Q_tot = df_shock["value2"].sum()`. -/
def Qtot (rows : List Row) : ℚ :=
  (rows.map Row.value2).sum

/-- Baseline `df_shock["weight"] = df_shock["alpha"] * df_shock["price"]**(1 - sigma)`. -/
def wBase (rows : List Row) (σ : ℤ) (r : Row) : ℚ :=
  alpha rows σ r * price r ^ (1 - σ)

/-- Baseline `df_shock["weight"].sum()`. -/
def wBaseSum (rows : List Row) (σ : ℤ) : ℚ :=
  (rows.map (wBase rows σ)).sum

/-- `df_shock["share_base"] = df_shock["weight"] / df_shock["weight"].sum()`. -/
def shareBase (rows : List Row) (σ : ℤ) (r : Row) : ℚ :=
  wBase rows σ r / wBaseSum rows σ

/-- CES price index `P = (alpha * price**(1-sigma)).sum() ** (1 / (1 - sigma))`;
the summed column is exactly the baseline weight column, and the exponent is
Python float division, so the power is a real (`rpow`) power. -/
noncomputable def Pidx (rows : List Row) (σ : ℤ) : ℝ :=
  (wBaseSum rows σ : ℝ) ^ ((1 : ℝ) / (1 - (σ : ℝ)))

/-- `E = P * Q_tot`. -/
noncomputable def Eexp (rows : List Row) (σ : ℤ) : ℝ :=
  Pidx rows σ * (Qtot rows : ℝ)

/-- `df_shock["q_base"] = df_shock["share_base"] * E / df_shock["price"]`. -/
noncomputable def qBase (rows : List Row) (σ : ℤ) (r : Row) : ℝ :=
  (shareBase rows σ r : ℝ) * Eexp rows σ / (price r : ℝ)

/-- `df_shock.loc[df_shock.source == country_from, "alpha"] = 0`. -/
def alphaPost (rows : List Row) (σ : ℤ) (cf : String) (r : Row) : ℚ :=
  if r.source = cf then 0 else alpha rows σ r

/-- Post-shock `df_shock["weight"] = df_shock["alpha"] * df_shock["price"]**(1 - sigma)`. -/
def wPost (rows : List Row) (σ : ℤ) (cf : String) (r : Row) : ℚ :=
  alphaPost rows σ cf r * price r ^ (1 - σ)

/-- Post-shock `df_shock["weight"].sum()`. -/
def wPostSum (rows : List Row) (σ : ℤ) (cf : String) : ℚ :=
  (rows.map (wPost rows σ cf)).sum

/-- Post-shock share with the division-by-zero guard:
`share_post = weight / weight.sum() if weight.sum() != 0 else 0`. -/
def sharePost (rows : List Row) (σ : ℤ) (cf : String) (r : Row) : ℚ :=
  if wPostSum rows σ cf ≠ 0 then wPost rows σ cf r / wPostSum rows σ cf else 0

/-- `P_new = (alpha * price**(1-sigma)).sum() ** (1 / (1 - sigma))` after the shock. -/
noncomputable def Pnew (rows : List Row) (σ : ℤ) (cf : String) : ℝ :=
  (wPostSum rows σ cf : ℝ) ^ ((1 : ℝ) / (1 - (σ : ℝ)))

/-- `E_new = P_new * Q_tot`. -/
noncomputable def Enew (rows : List Row) (σ : ℤ) (cf : String) : ℝ :=
  Pnew rows σ cf * (Qtot rows : ℝ)

/-- `q_new = share_post * E_new / price if price != 0 else 0` (the row-wise
`apply` with the explicit zero-price guard). -/
noncomputable def qNew (rows : List Row) (σ : ℤ) (cf : String) (r : Row) : ℝ :=
  if price r ≠ 0 then (sharePost rows σ cf r : ℝ) * Enew rows σ cf / (price r : ℝ) else 0

/-- One output row of the simulation for a basket row `r` (the column
selection at `core.py` line 207; the `alpha` column was overwritten by the
shock, so the reported alpha is the post-shock one). -/
noncomputable def mkShockRow (rows : List Row) (σ : ℤ) (cf : String) (r : Row) : ShockRow :=
  { source := r.source
    target := r.target
    period := r.period
    product := r.product
    value := r.value
    value2 := r.value2
    price := price r
    alpha := alphaPost rows σ cf r
    share_base := shareBase rows σ r
    share_post := sharePost rows σ cf r
    q_base := qBase rows σ r
    q_new := qNew rows σ cf r
    q_delta := qNew rows σ cf r - qBase rows σ r }

/-- The numeric stage of `simulate_shock`: restrict the selected rows to the
importer's basket (`df_shock = data[data.target == country_to].copy()`) and
compute every column. -/
noncomputable def shockResult (data : List Row) (σ : ℤ) (cf ct : String) : List ShockRow :=
  let basket := data.filter (fun r => r.target == ct)
  basket.map (mkShockRow basket σ cf)

/-- `simulate_shock(df, country_from, country_to, period, product, sigma)`:
on success, the very dataset object is returned with its row data untouched
(the numeric stage works on a copy) and the `simulation` attribute set. -/
noncomputable def simulate_shock (ds : TerraDataset) (country_from country_to period : String)
    (product : Option String) (σ : ℤ) : Except PyError TerraDataset :=
  match shock_select ds.data country_from country_to period product with
  | .error e => .error e
  | .ok data => .ok { ds with simulation := some (shockResult data σ country_from country_to) }

/-- Modelled from the spec: the selection stage as the spec describes the
effective behaviour when `product` is omitted — "the simulator may operate
on un-aggregated multi-product rows" — i.e. the identical pipeline with no
product aggregation step at all.  Introduced only to be compared with the
source-derived `shock_select`. -/
def shock_select_noagg (rows : List Row) (country_from country_to period : String) :
    Except PyError (List Row) :=
  let data := rows.filter (fun r => r.period == period)
  if data.isEmpty then
    .error (.valueError ("Period " ++ period ++ " is not present in the dataset."))
  else
    if (data.filter (fun r => r.source != country_from && r.target == country_to)).isEmpty then
      .error (.valueError ("Simulation not applicable, since there is only " ++ country_from ++ " as supplier for " ++ country_to ++ "."))
    else
      .ok data

/-- Modelled from the spec: `simulate_shock` with the aggregation step
dropped, for comparison with the source-derived `simulate_shock`. -/
noncomputable def simulate_shock_noagg (ds : TerraDataset) (country_from country_to period : String)
    (σ : ℤ) : Except PyError TerraDataset :=
  match shock_select_noagg ds.data country_from country_to period with
  | .error e => .error e
  | .ok data => .ok { ds with simulation := some (shockResult data σ country_from country_to) }

/-! ## Concrete inputs used by witnesses and counterexamples -/

/-- A two-edge graph with positive total `qty`. -/
def c2G : List GEdge := [⟨"A", "B", 1⟩, ⟨"B", "C", 3⟩]

/-- A graph whose total `qty` is zero. -/
def c2Z : List GEdge := [⟨"A", "B", 0⟩, ⟨"B", "A", 0⟩]

/-- A graph with one zero-`qty` edge and positive total, so the zero edge
gets normalized weight `0` and the sentinel distance. -/
def c5G : List GEdge := [⟨"A", "B", 0⟩, ⟨"B", "C", 1⟩]

/-- A one-row dataset for observing the direction-swap mutation. -/
def c3ds : TerraDataset := ⟨[⟨"A", "B", "2020", "P", 1, 1, 1⟩], none⟩

/-- A one-row dataset for the `product`-argument path of `simulate_shock`. -/
def c4ds : TerraDataset := ⟨[⟨"A", "C", "2020", "X", 26, 13, 1⟩], none⟩

/-- A dataset in which `A` is literally the only supplier of `C`. -/
def c6ds : TerraDataset := ⟨[⟨"A", "C", "2020", "P", 26, 13, 1⟩], none⟩

/-- Two suppliers of `C`, with the supplier to be removed (`A`) carrying
100 percent of `value2` (supplier `B` has `value2 = 0`). -/
def c6brows : List Row := [⟨"A", "C", "2020", "P", 26, 10, 1⟩, ⟨"B", "C", "2020", "P", 35, 0, 1⟩]

/-- The dataset over `c6brows`. -/
def c6bds : TerraDataset := ⟨c6brows, none⟩

/-- The second row of `c7rows`: its embedded `price` is `35 / 0 = 0`. -/
def c7rowB : Row := ⟨"B", "C", "2020", "P", 35, 0, 1⟩

/-- A basket on which the post-shock weight total is exactly zero after
removing supplier `A`. -/
def c7rows : List Row := [⟨"A", "C", "2020", "P", 26, 13, 1⟩, c7rowB]

/-- The aggregated weight of one period within a set of rows: the sum of the
`weight` column over the rows of that period (what the pandas groupby
assigns to the period's group). -/
def wSum (rows : List Row) (p : String) : ℚ :=
  ((rows.filter (fun r => r.period == p)).map Row.weight).sum

/-- Rows over two periods, deliberately out of chronological order, for the
basket-variation witness. -/
def c9rows : List Row :=
  [⟨"A", "B", "2021", "P", 1, 1, 6⟩, ⟨"A", "B", "2020", "P", 1, 1, 4⟩]

/-- The dataset over `c9rows`. -/
def c9ds : TerraDataset := ⟨c9rows, none⟩

/-- First supplier row for the volume-conservation counterexample:
price `26 / 13 = 2`. -/
def c1rowA : Row := ⟨"A", "C", "2020", "P", 26, 13, 1⟩

/-- Second supplier row for the volume-conservation counterexample:
price `35 / 35 = 1`. -/
def c1rowB : Row := ⟨"B", "C", "2020", "P", 35, 35, 1⟩

/-- Two suppliers of importer `C` with different unit prices; chosen so that
the baseline weight total is `16/81` and the CES price index is exactly
`3/2`. -/
def c1rows : List Row := [c1rowA, c1rowB]

/-- The dataset over `c1rows`. -/
def c1ds : TerraDataset := ⟨c1rows, none⟩

/-- Decidable equality of `Except` values with decidable components. -/
instance {ε α : Type} [DecidableEq ε] [DecidableEq α] : DecidableEq (Except ε α) := fun x y =>
  match x, y with
  | .ok a, .ok b =>
    if h : a = b then .isTrue (by rw [h]) else .isFalse (by simp [h])
  | .error a, .error b =>
    if h : a = b then .isTrue (by rw [h]) else .isFalse (by simp [h])
  | .ok _, .error _ => .isFalse (by simp)
  | .error _, .ok _ => .isFalse (by simp)

end Terra

open Terra

/-! ## General helper lemmas -/

/-- Pointwise equality on the members of a list gives equal maps. -/
theorem terra_map_congr {α β : Type} {l : List α} {f g : α → β}
    (h : ∀ a ∈ l, f a = g a) : l.map f = l.map g := by
  induction l with
  | nil => rfl
  | cons a t ih =>
    simp only [List.map_cons, h a (List.mem_cons_self a t)]
    exact congrArg _ (ih (fun x hx => h x (List.mem_cons_of_mem a hx)))

/-- Division distributes over a list sum. -/
theorem terra_sum_map_div {α : Type} (l : List α) (f : α → ℚ) (c : ℚ) :
    (l.map (fun x => f x / c)).sum = (l.map f).sum / c := by
  induction l with
  | nil => simp
  | cons a t ih => simp [ih, add_div]

/-- Looking up `n` in the dict built by tabulating `f` over a node list
containing `n` returns `f n`. -/
theorem terra_dget_map (f : String → ℚ) (ns : List String) (n : String)
    (h : n ∈ ns) : dget (ns.map (fun m => (m, f m))) n = f n := by
  induction ns with
  | nil => simp at h
  | cons m t ih =>
    by_cases hmn : m = n
    · subst hmn
      simp [dget, List.find?]
    · have hb : (m == n) = false := by simp [hmn]
      have hnt : n ∈ t := by
        rcases List.mem_cons.mp h with h1 | h2
        · exact absurd h1.symm hmn
        · exact h2
      simpa [dget, List.find?, hb] using ih hnt

/-! ## Lemmas about the metrics engine -/

/-- When the total raw quantity is zero every normalized weight is zero. -/
theorem terra_wt_of_total_zero {G : List GEdge} (h : totalQty G = 0) (e : GEdge) :
    wt G e = 0 := by
  simp [wt, h]

/-- When the total raw quantity is zero every weighted in-degree is zero. -/
theorem terra_inDeg_of_total_zero {G : List GEdge} (h : totalQty G = 0) (n : String) :
    inDeg G n = 0 := by
  apply List.sum_eq_zero
  intro x hx
  rcases List.mem_map.mp hx with ⟨e, _, he⟩
  simpa [terra_wt_of_total_zero h e] using he.symm

/-- When the total raw quantity is zero every weighted out-degree is zero. -/
theorem terra_outDeg_of_total_zero {G : List GEdge} (h : totalQty G = 0) (n : String) :
    outDeg G n = 0 := by
  apply List.sum_eq_zero
  intro x hx
  rcases List.mem_map.mp hx with ⟨e, _, he⟩
  simpa [terra_wt_of_total_zero h e] using he.symm

/-- The vulnerability dict tabulates the vulnerability formula over the nodes. -/
theorem terra_vulnDict_eq (G : List GEdge) :
    vulnDict G = (nodesOf G).map
      (fun n => (n, if inDeg G n ≠ 0 then 1 - inDeg G n else 0)) := by
  simp [vulnDict, inDegDict, List.map_map]

/-- Looking up a node of the graph in the vulnerability dict yields the
vulnerability formula. -/
theorem terra_dget_vulnDict {G : List GEdge} {n : String} (h : n ∈ nodesOf G) :
    dget (vulnDict G) n = if inDeg G n ≠ 0 then 1 - inDeg G n else 0 := by
  rw [terra_vulnDict_eq]
  exact terra_dget_map (fun n => if inDeg G n ≠ 0 then 1 - inDeg G n else 0) _ n h

/-- Looking up a node of the graph in the degree dict yields its weighted
degree. -/
theorem terra_dget_degDict {G : List GEdge} {n : String} (h : n ∈ nodesOf G) :
    dget (degDict G) n = deg G n :=
  terra_dget_map (deg G) _ n h

/-- Looking up a node of the graph in the in-degree dict yields its weighted
in-degree. -/
theorem terra_dget_inDegDict {G : List GEdge} {n : String} (h : n ∈ nodesOf G) :
    dget (inDegDict G) n = inDeg G n :=
  terra_dget_map (inDeg G) _ n h

/-- Looking up a node of the graph in the out-degree dict yields its weighted
out-degree. -/
theorem terra_dget_outDegDict {G : List GEdge} {n : String} (h : n ∈ nodesOf G) :
    dget (outDegDict G) n = outDeg G n :=
  terra_dget_map (outDeg G) _ n h

/-! ## Claim C2 -/

/-- C2: in `calculate_node_metrics`, if the sum of the edge `qty` attributes
is positive then each edge weight is `qty / total` and the weights sum to 1;
if the total is 0, every edge weight is 0 and the function still returns a
row per node whose degree-based metrics are all the degenerate value 0
(it does not raise).  The externally computed centralities are collaborator
values outside this formalization. -/
theorem C2_weight_normalization (clos betw disti : String → ℚ) (G : List GEdge) (per : String) :
    (0 < totalQty G →
      G.map (wt G) = G.map (fun e => e.qty / totalQty G) ∧
      (G.map (wt G)).sum = 1) ∧
    (totalQty G = 0 →
      G.map (wt G) = G.map (fun _ => (0 : ℚ)) ∧
      (calculate_node_metrics clos betw disti G per).length = (nodesOf G).length ∧
      (calculate_node_metrics clos betw disti G per).map MetricRow.degree
        = (nodesOf G).map (fun _ => (0 : ℚ)) ∧
      (calculate_node_metrics clos betw disti G per).map MetricRow.in_degree
        = (nodesOf G).map (fun _ => (0 : ℚ)) ∧
      (calculate_node_metrics clos betw disti G per).map MetricRow.out_degree
        = (nodesOf G).map (fun _ => (0 : ℚ)) ∧
      (calculate_node_metrics clos betw disti G per).map MetricRow.vulnerability
        = (nodesOf G).map (fun _ => (0 : ℚ))) := by
  constructor
  · intro h
    have hmap : G.map (wt G) = G.map (fun e => e.qty / totalQty G) :=
      terra_map_congr (fun e _ => by simp [wt, h])
    refine ⟨hmap, ?_⟩
    rw [hmap, terra_sum_map_div]
    exact div_self (ne_of_gt h)
  · intro h
    refine ⟨terra_map_congr (fun e _ => by simp [terra_wt_of_total_zero h e]), ?_, ?_, ?_, ?_, ?_⟩
    · simp [calculate_node_metrics]
    · rw [calculate_node_metrics, List.map_map]
      exact terra_map_congr (fun n hn => by
        simp [Function.comp, terra_dget_degDict hn, deg,
          terra_inDeg_of_total_zero h, terra_outDeg_of_total_zero h])
    · rw [calculate_node_metrics, List.map_map]
      exact terra_map_congr (fun n hn => by
        simp [Function.comp, terra_dget_inDegDict hn, terra_inDeg_of_total_zero h])
    · rw [calculate_node_metrics, List.map_map]
      exact terra_map_congr (fun n hn => by
        simp [Function.comp, terra_dget_outDegDict hn, terra_outDeg_of_total_zero h])
    · rw [calculate_node_metrics, List.map_map]
      exact terra_map_congr (fun n hn => by
        simp [Function.comp, terra_dget_vulnDict hn, terra_inDeg_of_total_zero h])

/-- Witness for C2: both branches of `C2_weight_normalization` applied at
concrete graphs, with the hypotheses discharged by evaluation. -/
theorem C2_weight_normalization_witness :
    (0 < totalQty c2G ∧ (c2G.map (wt c2G)).sum = 1) ∧
    (totalQty c2Z = 0 ∧
      (calculate_node_metrics (fun _ => 0) (fun _ => 0) (fun _ => 0) c2Z "p").map
        MetricRow.vulnerability = (nodesOf c2Z).map (fun _ => (0 : ℚ))) :=
  ⟨⟨by norm_num [totalQty, c2G],
    ((C2_weight_normalization (fun _ => 0) (fun _ => 0) (fun _ => 0) c2G "p").1
      (by norm_num [totalQty, c2G])).2⟩,
   ⟨by norm_num [totalQty, c2Z],
    ((C2_weight_normalization (fun _ => 0) (fun _ => 0) (fun _ => 0) c2Z "p").2
      (by norm_num [totalQty, c2Z])).2.2.2.2.2⟩⟩

/-! ## Claim C8 -/

/-- C8: every row of the metrics output reports
`vulnerability = 1 - in_degree` when the node's weighted in-degree is
nonzero, and `0` when it is zero. -/
theorem C8_vulnerability_formula (clos betw disti : String → ℚ) (G : List GEdge) (per : String) :
    (calculate_node_metrics clos betw disti G per).map MetricRow.vulnerability
      = (nodesOf G).map (fun n => if inDeg G n ≠ 0 then 1 - inDeg G n else 0) := by
  rw [calculate_node_metrics, List.map_map]
  exact terra_map_congr (fun n hn => by simp [Function.comp, terra_dget_vulnDict hn])

/-! ## Claim C5 -/

/-- Counterexample for C5 as stated: in a graph where the total is positive
but one edge has `qty = 0`, that edge's weight is `0` and its distance
attribute is the value of the literal `1e9999`, which as an IEEE-754 double
is positive infinity (`⊤` in this embedding) — not a finite sentinel. -/
theorem C5_counterexample :
    wt c5G ⟨"A", "B", 0⟩ = 0 ∧ invW c5G ⟨"A", "B", 0⟩ = ⊤ := by
  constructor
  · norm_num [wt, totalQty, c5G]
  · norm_num [invW, wt, totalQty, c5G]

/-- C5 (amended): for every edge with positive weight the distance attribute
is `1 / weight`; for every edge with weight `≤ 0` (in particular weight 0)
it is the overflowed literal `1e9999`, i.e. positive infinity, so an actual
infinite value does enter the shortest-path arithmetic. -/
theorem C5_inverse_weight (G : List GEdge) (e : GEdge) :
    (0 < wt G e → invW G e = ((1 / wt G e : ℚ) : WithTop ℚ)) ∧
    (¬ 0 < wt G e → invW G e = ⊤) := by
  constructor
  · intro h
    simp [invW, h]
  · intro h
    simp [invW, h]

/-- Witness for C5: both branches of `C5_inverse_weight` at concrete edges of
`c5G`. -/
theorem C5_inverse_weight_witness :
    (0 < wt c5G ⟨"B", "C", 1⟩ ∧
      invW c5G ⟨"B", "C", 1⟩ = ((1 / wt c5G ⟨"B", "C", 1⟩ : ℚ) : WithTop ℚ)) ∧
    (¬ 0 < wt c5G ⟨"A", "B", 0⟩ ∧ invW c5G ⟨"A", "B", 0⟩ = ⊤) :=
  ⟨⟨by norm_num [wt, totalQty, c5G],
    (C5_inverse_weight c5G ⟨"B", "C", 1⟩).1 (by norm_num [wt, totalQty, c5G])⟩,
   ⟨by norm_num [wt, totalQty, c5G],
    (C5_inverse_weight c5G ⟨"A", "B", 0⟩).2 (by norm_num [wt, totalQty, c5G])⟩⟩

/-! ## Claim C3 -/

/-- C3 fails on the code: `analyze_basket` with `direction="I"` performs the
source/target swap on the dataset's stored table itself (no copy is taken),
so after the call the `TerraDataset`'s row data is observably changed. -/
theorem C3_direction_swap_mutates :
    (analyze_basket c3ds "B" none none false "I").2.data ≠ c3ds.data := by
  decide

/-! ## Claim C4 -/

/-- C4 fails on the code: whenever a `product` argument is provided,
`simulate_shock` evaluates `df.empty` on the `TerraDataset` object (which
has no such attribute) and raises `AttributeError` — here at a dataset whose
period rows exist but contain no product `"Y"`, where the claim (and the
function's docstring) promise a `ValueError` naming the product. -/
theorem C4_product_filter_attribute_error :
    simulate_shock c4ds "A" "C" "2020" (some "Y") 5 =
      .error (.attributeError "TerraDataset object has no attribute empty") := by
  have h : shock_select c4ds.data "A" "C" "2020" (some "Y") =
      .error (.attributeError "TerraDataset object has no attribute empty") := by
    decide
  unfold simulate_shock
  rw [h]

/-! ## Claim C6 -/

/-- C6 (amended): `simulate_shock` (with `product` omitted) raises the
sole-supplier `ValueError` exactly when, among the selected period's rows,
there is no row with `source != country_from` and `target == country_to`;
the check is on row existence, so a second supplier row with zero `value2`
counts as supplier diversity. -/
theorem C6_sole_supplier_error (ds : TerraDataset) (cf ct per : String) (σ : ℤ)
    (h1 : ds.data.filter (fun r => r.period == per) ≠ [])
    (h2 : (ds.data.filter (fun r => r.period == per)).filter
        (fun r => r.source != cf && r.target == ct) = []) :
    simulate_shock ds cf ct per none σ =
      .error (.valueError ("Simulation not applicable, since there is only "
        ++ cf ++ " as supplier for " ++ ct ++ ".")) := by
  simp [simulate_shock, shock_select, List.isEmpty_iff, h1, h2]

/-- Witness for C6: the sole-supplier dataset `c6ds` satisfies both
hypotheses, and `simulate_shock` returns the sole-supplier error there. -/
theorem C6_sole_supplier_error_witness :
    (c6ds.data.filter (fun r => r.period == "2020") ≠ [] ∧
      (c6ds.data.filter (fun r => r.period == "2020")).filter
        (fun r => r.source != "A" && r.target == "C") = []) ∧
    simulate_shock c6ds "A" "C" "2020" none 5 =
      .error (.valueError ("Simulation not applicable, since there is only "
        ++ "A" ++ " as supplier for " ++ "C" ++ ".")) :=
  ⟨⟨by decide, by decide⟩,
    C6_sole_supplier_error c6ds "A" "C" "2020" 5 (by decide) (by decide)⟩

/-- Counterexample for C6's "in particular" part: with two suppliers of `C`
where the removed supplier `A` carries 100 percent of `value2` (supplier `B`
has `value2 = 0`), the existence check passes, no validation error is
raised, and the call returns a result. -/
theorem C6_zero_value2_supplier_counterexample :
    simulate_shock c6bds "A" "C" "2020" none 5 =
      .ok ⟨c6brows, some (shockResult c6brows 5 "A" "C")⟩ := by
  have h : shock_select c6bds.data "A" "C" "2020" none = .ok c6brows := by
    decide
  unfold simulate_shock
  rw [h]
  rfl

/-! ## Claim C7 -/

/-- C7: the degenerate numeric branches of `simulate_shock` substitute zero
instead of dividing by zero: if the post-shock total weight is exactly zero
every row's `share_post` is `0`, and any row with `price == 0` gets
`q_new = 0`. -/
theorem C7_zero_guards (rows : List Row) (σ : ℤ) (cf : String) :
    (wPostSum rows σ cf = 0 →
      rows.map (sharePost rows σ cf) = rows.map (fun _ => (0 : ℚ))) ∧
    (∀ r : Row, price r = 0 → qNew rows σ cf r = 0) := by
  constructor
  · intro h
    exact terra_map_congr (fun r _ => by simp [sharePost, h])
  · intro r h
    simp [qNew, h]

/-- Witness for C7: on `c7rows` with `country_from = "A"` the post-shock
weight total is exactly zero and row `c7rowB` has price zero; both guards
fire. -/
theorem C7_zero_guards_witness :
    (wPostSum c7rows 5 "A" = 0 ∧
      c7rows.map (sharePost c7rows 5 "A") = c7rows.map (fun _ => (0 : ℚ))) ∧
    (price c7rowB = 0 ∧ qNew c7rows 5 "A" c7rowB = 0) :=
  ⟨⟨by norm_num [wPostSum, wPost, alphaPost, alpha, alphaRaw, alphaSum, price, c7rows, c7rowB],
    (C7_zero_guards c7rows 5 "A").1
      (by norm_num [wPostSum, wPost, alphaPost, alpha, alphaRaw, alphaSum, price, c7rows, c7rowB])⟩,
   ⟨by norm_num [price, c7rowB],
    (C7_zero_guards c7rows 5 "A").2 c7rowB (by norm_num [price, c7rowB])⟩⟩

/-! ## Claim C10 -/

/-- C10: when `product` is omitted, the per-product aggregation of
`value`/`value2` appears only as a discarded expression, so `simulate_shock`
coincides with the same pipeline with the aggregation step removed — the CES
computation operates on the original un-aggregated multi-product rows. -/
theorem C10_aggregation_discarded (ds : TerraDataset) (cf ct per : String) (σ : ℤ) :
    simulate_shock ds cf ct per none σ = simulate_shock_noagg ds cf ct per σ :=
  rfl

/-! ## Lemmas about the CES stage of the shock simulator -/

/-- Multiplication by a constant distributes over a list sum. -/
theorem terra_sum_map_mul_right {α : Type} (l : List α) (f : α → ℝ) (c : ℝ) :
    (l.map (fun x => f x * c)).sum = (l.map f).sum * c := by
  induction l with
  | nil => simp
  | cons a t ih => simp [ih, add_mul]

/-- Casting a rational list sum to the reals commutes with summing the casts. -/
theorem terra_cast_sum {α : Type} (l : List α) (f : α → ℚ) :
    (((l.map f).sum : ℚ) : ℝ) = (l.map (fun x => ((f x : ℚ) : ℝ))).sum := by
  induction l with
  | nil => simp
  | cons a t ih => simp [Rat.cast_add, ih]

/-- The baseline shares sum to one when the baseline weight total is nonzero. -/
theorem terra_sum_shareBase (rows : List Row) (σ : ℤ) (hb : wBaseSum rows σ ≠ 0) :
    (rows.map (shareBase rows σ)).sum = 1 := by
  show (rows.map (fun r => wBase rows σ r / wBaseSum rows σ)).sum = 1
  rw [terra_sum_map_div]
  exact div_self hb

/-- The post-shock shares sum to one when the post-shock weight total is
nonzero. -/
theorem terra_sum_sharePost (rows : List Row) (σ : ℤ) (cf : String)
    (hq : wPostSum rows σ cf ≠ 0) :
    (rows.map (sharePost rows σ cf)).sum = 1 := by
  have hmap : rows.map (sharePost rows σ cf)
      = rows.map (fun r => wPost rows σ cf r / wPostSum rows σ cf) :=
    terra_map_congr (fun r _ => by simp [sharePost, hq])
  rw [hmap, terra_sum_map_div]
  exact div_self hq

/-! ## Claim C1 -/

/-- Counterexample for C1 as stated: a successful `simulate_shock` call
(two suppliers with prices 2 and 1, sigma = 5) on which the baseline
quantities do not sum to `Q_total`: the CES price index is exactly `3/2`,
`Σ q_base = 249/4`, while `Q_total = Σ value2 = 48` — far beyond any
floating-point tolerance. -/
theorem C1_counterexample :
    simulate_shock c1ds "A" "C" "2020" none 5 =
      .ok ⟨c1rows, some (shockResult c1rows 5 "A" "C")⟩ ∧
    ((shockResult c1rows 5 "A" "C").map ShockRow.q_base).sum
      ≠ ((Qtot (c1rows.filter (fun r => r.target == "C")) : ℚ) : ℝ) := by
  constructor
  · have h : shock_select c1ds.data "A" "C" "2020" none = .ok c1rows := by decide
    unfold simulate_shock
    rw [h]
    rfl
  · have hfilter : c1rows.filter (fun r => r.target == "C") = c1rows := by decide
    have hw : wBaseSum c1rows 5 = 16 / 81 := by
      norm_num [wBaseSum, wBase, alpha, alphaRaw, alphaSum, price, c1rows, c1rowA, c1rowB]
    have hP : Pidx c1rows 5 = 3 / 2 := by
      simp only [Pidx, hw]
      have h0 : ((16 / 81 : ℚ) : ℝ) = (2 / 3 : ℝ) ^ (4 : ℕ) := by norm_num
      have h1 : (1 : ℝ) / (1 - ((5 : ℤ) : ℝ)) = -(1 / 4) := by norm_num
      rw [h0, h1, ← Real.rpow_natCast (2 / 3 : ℝ) 4,
        ← Real.rpow_mul (by norm_num : (0 : ℝ) ≤ 2 / 3)]
      have h2 : ((4 : ℕ) : ℝ) * -(1 / 4) = ((-1 : ℤ) : ℝ) := by norm_num
      rw [h2, Real.rpow_intCast]
      norm_num
    have hQ : Qtot c1rows = 48 := by norm_num [Qtot, c1rows, c1rowA, c1rowB]
    have hsA : shareBase c1rows 5 c1rowA = 13 / 48 := by
      norm_num [shareBase, wBase, wBaseSum, alpha, alphaRaw, alphaSum, price,
        c1rows, c1rowA, c1rowB]
    have hsB : shareBase c1rows 5 c1rowB = 35 / 48 := by
      norm_num [shareBase, wBase, wBaseSum, alpha, alphaRaw, alphaSum, price,
        c1rows, c1rowA, c1rowB]
    have hpA : price c1rowA = 2 := by norm_num [price, c1rowA]
    have hpB : price c1rowB = 1 := by norm_num [price, c1rowB]
    have hfilter2 : List.filter (fun r => r.target == "C") [c1rowA, c1rowB]
        = [c1rowA, c1rowB] := by decide
    have hexpand : ((shockResult c1rows 5 "A" "C").map ShockRow.q_base).sum
        = qBase c1rows 5 c1rowA + qBase c1rows 5 c1rowB := by
      simp [shockResult, c1rows, hfilter2, mkShockRow]
    rw [hexpand, hfilter]
    simp only [qBase, Eexp, hP, hQ, hsA, hsB, hpA, hpB]
    norm_num

/-- C1 (amended): a successful shock simulation conserves total expenditure
scenario-wise, not total physical volume: whenever the baseline weight total
and all supplier prices are nonzero, `Σ price·q_base = E = P·Q_total`, and
if additionally the post-shock weight total is nonzero,
`Σ price·q_new = E_new = P_new·Q_total`.  (`Σ q_base` itself generally
differs from `Q_total`, as `C1_counterexample` shows.) -/
theorem C1_expenditure_conservation (rows : List Row) (σ : ℤ) (cf : String)
    (hb : wBaseSum rows σ ≠ 0) (hp : ∀ r ∈ rows, price r ≠ 0) :
    (rows.map (fun r => (price r : ℝ) * qBase rows σ r)).sum = Eexp rows σ ∧
    (wPostSum rows σ cf ≠ 0 →
      (rows.map (fun r => (price r : ℝ) * qNew rows σ cf r)).sum = Enew rows σ cf) := by
  constructor
  · have hmap : rows.map (fun r => (price r : ℝ) * qBase rows σ r)
        = rows.map (fun r => ((shareBase rows σ r : ℚ) : ℝ) * Eexp rows σ) :=
      terra_map_congr (fun r hr => by
        have hpr : ((price r : ℚ) : ℝ) ≠ 0 := by exact_mod_cast hp r hr
        simp only [qBase]
        field_simp)
    rw [hmap, terra_sum_map_mul_right, ← terra_cast_sum, terra_sum_shareBase rows σ hb]
    simp
  · intro hq
    have hmap : rows.map (fun r => (price r : ℝ) * qNew rows σ cf r)
        = rows.map (fun r => ((sharePost rows σ cf r : ℚ) : ℝ) * Enew rows σ cf) :=
      terra_map_congr (fun r hr => by
        have hpq : price r ≠ 0 := hp r hr
        have hpr : ((price r : ℚ) : ℝ) ≠ 0 := by exact_mod_cast hpq
        simp only [qNew, if_pos hpq]
        field_simp)
    rw [hmap, terra_sum_map_mul_right, ← terra_cast_sum, terra_sum_sharePost rows σ cf hq]
    simp

/-- Witness for C1: on the two-supplier basket `c1rows` (nonzero prices,
nonzero baseline and post-shock weight totals) the conservation identities
of `C1_expenditure_conservation` hold. -/
theorem C1_expenditure_conservation_witness :
    (wBaseSum c1rows 5 ≠ 0 ∧ price c1rowA ≠ 0 ∧ price c1rowB ≠ 0 ∧
      wPostSum c1rows 5 "A" ≠ 0) ∧
    ((c1rows.map (fun r => (price r : ℝ) * qBase c1rows 5 r)).sum = Eexp c1rows 5 ∧
     (c1rows.map (fun r => (price r : ℝ) * qNew c1rows 5 "A" r)).sum = Enew c1rows 5 "A") := by
  have hb : wBaseSum c1rows 5 ≠ 0 := by
    norm_num [wBaseSum, wBase, alpha, alphaRaw, alphaSum, price, c1rows, c1rowA, c1rowB]
  have hpA : price c1rowA ≠ 0 := by norm_num [price, c1rowA]
  have hpB : price c1rowB ≠ 0 := by norm_num [price, c1rowB]
  have hp : ∀ r ∈ c1rows, price r ≠ 0 := by
    intro r hr
    rcases List.mem_cons.mp hr with h | h
    · rw [h]; exact hpA
    · rw [List.mem_singleton.mp h]; exact hpB
  have hq : wPostSum c1rows 5 "A" ≠ 0 := by
    norm_num [wPostSum, wPost, alphaPost, alpha, alphaRaw, alphaSum, price,
      c1rows, c1rowA, c1rowB]
    decide
  exact ⟨⟨hb, hpA, hpB, hq⟩,
    (C1_expenditure_conservation c1rows 5 "A" hb hp).1,
    (C1_expenditure_conservation c1rows 5 "A" hb hp).2 hq⟩

/-! ## Lemmas about the ordered groupby fold -/

/-- Unfolding `valAt` over a cons cell. -/
theorem terra_valAt_nil (p : String) : valAt [] p = 0 := rfl

/-- Unfolding `valAt` over a cons cell. -/
theorem terra_valAt_cons (q : String) (x : ℚ) (t : List (String × ℚ)) (p : String) :
    valAt ((q, x) :: t) p = (if q = p then x else 0) + valAt t p := by
  by_cases h : q = p
  · simp [valAt, h]
  · simp [valAt, h]

/-- Pair-level form of `terra_valAt_cons`. -/
theorem terra_valAt_consP (kv : String × ℚ) (t : List (String × ℚ)) (p : String) :
    valAt (kv :: t) p = (if kv.1 = p then kv.2 else 0) + valAt t p := by
  obtain ⟨q, x⟩ := kv
  exact terra_valAt_cons q x t p

/-- Inserting a pair adds its weight to exactly its own key. -/
theorem terra_valAt_insertAdd (l : List (String × ℚ)) (x : String × ℚ) (p : String) :
    valAt (insertAdd l x) p = valAt l p + (if x.1 = p then x.2 else 0) := by
  induction l with
  | nil =>
    rw [show insertAdd [] x = [x] from rfl, terra_valAt_consP, terra_valAt_nil]
    ring
  | cons kv t ih =>
    by_cases h1 : x.1 = kv.1
    · have he : insertAdd (kv :: t) x = (kv.1, kv.2 + x.2) :: t := by
        simp [insertAdd, h1]
      rw [he, terra_valAt_cons kv.1 (kv.2 + x.2) t p, terra_valAt_consP kv t p, h1]
      by_cases h2 : kv.1 = p
      · simp only [if_pos h2]
        ring
      · simp only [if_neg h2]
        ring
    · by_cases h3 : x.1 < kv.1
      · have he : insertAdd (kv :: t) x = x :: kv :: t := by
          simp [insertAdd, h1, h3]
        simp only [he, terra_valAt_consP]
        ring
      · have he : insertAdd (kv :: t) x = kv :: insertAdd t x := by
          simp [insertAdd, h1, h3]
        simp only [he, terra_valAt_consP, ih]
        ring

/-- The fold defining the groupby distributes key sums over the accumulator. -/
theorem terra_valAt_foldl :
    ∀ (l acc : List (String × ℚ)) (p : String),
      valAt (l.foldl insertAdd acc) p = valAt acc p + valAt l p := by
  intro l
  induction l with
  | nil =>
    intro acc p
    simp [terra_valAt_nil]
  | cons x t ih =>
    intro acc p
    obtain ⟨a, b⟩ := x
    simp only [List.foldl_cons]
    rw [ih, terra_valAt_insertAdd, terra_valAt_cons]
    ring

/-- The groupby preserves each key's total weight. -/
theorem terra_valAt_groupbySum (l : List (String × ℚ)) (p : String) :
    valAt (groupbySum l) p = valAt l p := by
  rw [groupbySum, terra_valAt_foldl, terra_valAt_nil, zero_add]

/-- Key membership after an ordered insert. -/
theorem terra_mem_keys_insertAdd (l : List (String × ℚ)) (x : String × ℚ) (q : String) :
    q ∈ (insertAdd l x).map Prod.fst ↔ q = x.1 ∨ q ∈ l.map Prod.fst := by
  induction l with
  | nil =>
    rw [show insertAdd [] x = [x] from rfl]
    simp
  | cons kv t ih =>
    by_cases h1 : x.1 = kv.1
    · have he : insertAdd (kv :: t) x = (kv.1, kv.2 + x.2) :: t := by
        simp [insertAdd, h1]
      rw [he]
      simp only [List.map_cons, List.mem_cons, h1]
      tauto
    · by_cases h2 : x.1 < kv.1
      · have he : insertAdd (kv :: t) x = x :: kv :: t := by
          simp [insertAdd, h1, h2]
        rw [he]
        simp only [List.map_cons, List.mem_cons]
      · have he : insertAdd (kv :: t) x = kv :: insertAdd t x := by
          simp [insertAdd, h1, h2]
        rw [he]
        simp only [List.map_cons, List.mem_cons, ih]
        tauto

/-- An ordered insert keeps the keys strictly sorted. -/
theorem terra_sorted_insertAdd (l : List (String × ℚ)) (x : String × ℚ)
    (h : (l.map Prod.fst).Pairwise (· < ·)) :
    ((insertAdd l x).map Prod.fst).Pairwise (· < ·) := by
  induction l with
  | nil =>
    rw [show insertAdd [] x = [x] from rfl]
    simp
  | cons kv t ih =>
    simp only [List.map_cons, List.pairwise_cons] at h
    obtain ⟨hc, ht⟩ := h
    by_cases h1 : x.1 = kv.1
    · have he : insertAdd (kv :: t) x = (kv.1, kv.2 + x.2) :: t := by
        simp [insertAdd, h1]
      rw [he]
      simp only [List.map_cons, List.pairwise_cons]
      exact ⟨hc, ht⟩
    · by_cases h2 : x.1 < kv.1
      · have he : insertAdd (kv :: t) x = x :: kv :: t := by
          simp [insertAdd, h1, h2]
        rw [he]
        simp only [List.map_cons, List.pairwise_cons]
        refine ⟨?_, hc, ht⟩
        intro z hz
        rcases List.mem_cons.mp hz with h | h
        · rw [h]; exact h2
        · exact lt_trans h2 (hc z h)
      · have hca : kv.1 < x.1 := by
          rcases lt_trichotomy x.1 kv.1 with h | h | h
          · exact absurd h h2
          · exact absurd h h1
          · exact h
        have he : insertAdd (kv :: t) x = kv :: insertAdd t x := by
          simp [insertAdd, h1, h2]
        rw [he]
        simp only [List.map_cons, List.pairwise_cons]
        refine ⟨?_, ih ht⟩
        intro z hz
        rcases (terra_mem_keys_insertAdd t x z).mp hz with h | h
        · rw [h]; exact hca
        · exact hc z h

/-- The groupby fold keeps the keys strictly sorted. -/
theorem terra_sorted_foldl :
    ∀ (l acc : List (String × ℚ)),
      (acc.map Prod.fst).Pairwise (· < ·) →
      ((l.foldl insertAdd acc).map Prod.fst).Pairwise (· < ·) := by
  intro l
  induction l with
  | nil =>
    intro acc h
    simpa using h
  | cons x t ih =>
    intro acc h
    exact ih _ (terra_sorted_insertAdd acc x h)

/-- The keys of a groupby result are strictly sorted ascending. -/
theorem terra_sorted_groupbySum (l : List (String × ℚ)) :
    ((groupbySum l).map Prod.fst).Pairwise (· < ·) :=
  terra_sorted_foldl l [] (by simp)

/-- A key absent from a pair list contributes nothing. -/
theorem terra_valAt_notmem (l : List (String × ℚ)) (k : String)
    (h : k ∉ l.map Prod.fst) : valAt l k = 0 := by
  induction l with
  | nil => rfl
  | cons kv t ih =>
    obtain ⟨q, y⟩ := kv
    simp only [List.map_cons, List.mem_cons] at h
    push_neg at h
    rw [terra_valAt_cons, ih h.2, if_neg (fun hq => h.1 hq.symm)]
    simp

/-- In a pair list with distinct keys, `valAt` recovers the stored value. -/
theorem terra_valAt_mem_nodup (l : List (String × ℚ)) (k : String) (v : ℚ)
    (hd : (l.map Prod.fst).Nodup) (hm : (k, v) ∈ l) : valAt l k = v := by
  induction l with
  | nil => simp at hm
  | cons kv t ih =>
    obtain ⟨q, y⟩ := kv
    simp only [List.map_cons, List.nodup_cons] at hd
    rcases List.mem_cons.mp hm with h | h
    · rw [Prod.mk.injEq] at h
      obtain ⟨hk, hv⟩ := h
      subst hk
      subst hv
      rw [terra_valAt_cons, terra_valAt_notmem t k hd.1, if_pos rfl]
      simp
    · have hk : q ≠ k := by
        intro hq
        subst hq
        exact hd.1 (List.mem_map_of_mem Prod.fst h)
      rw [terra_valAt_cons, if_neg hk, ih hd.2 h]
      simp

/-! ## Lemmas about the variation computation -/

/-- The variation tail keeps the period keys. -/
theorem terra_varAux_keys :
    ∀ (t : List (String × ℚ)) (w : ℚ), (varAux w t).map Prod.fst = t.map Prod.fst := by
  intro t
  induction t with
  | nil => intro w; rfl
  | cons kv s ih =>
    intro w
    obtain ⟨p, x⟩ := kv
    simp [varAux, ih]

/-- The variation computation keeps the period keys. -/
theorem terra_variation_keys (l : List (String × ℚ)) :
    (variation l).map Prod.fst = l.map Prod.fst := by
  cases l with
  | nil => rfl
  | cons kv t =>
    obtain ⟨p, w⟩ := kv
    simp [variation, terra_varAux_keys]

/-- The first variation row carries the missing value (`NaN` from the
shifted lag). -/
theorem terra_variation_head (l : List (String × ℚ)) (z : String × Option ℚ)
    (h : (variation l).head? = some z) : z.2 = none := by
  cases l with
  | nil => simp [variation] at h
  | cons kv t =>
    obtain ⟨p, w⟩ := kv
    simp only [variation, List.head?_cons, Option.some.injEq] at h
    rw [← h]

/-- Each later variation row relates the summed weights of its period and of
the previous period, for any weight function `S` agreeing with the stored
values. -/
theorem terra_chain_varAux (S : String → ℚ) :
    ∀ (t : List (String × ℚ)) (pe : String × Option ℚ) (pv : ℚ),
      S pe.1 = pv → (∀ kv ∈ t, S kv.1 = kv.2) →
      List.Chain' (fun x y => y.2 = some ((S y.1 - S x.1) / S x.1)) (pe :: varAux pv t) := by
  intro t
  induction t with
  | nil =>
    intro pe pv h1 h2
    simp [varAux]
  | cons kv s ih =>
    intro pe pv h1 h2
    obtain ⟨q, w⟩ := kv
    have hq : S q = w := h2 (q, w) (List.mem_cons_self _ _)
    simp only [varAux]
    rw [List.chain'_cons]
    constructor
    · simp [hq, h1]
    · exact ih (q, some ((w - pv) / pv)) w hq
        (fun kv hk => h2 kv (List.mem_cons_of_mem _ hk))

/-- The chain property for the full variation list. -/
theorem terra_chain_variation (S : String → ℚ) (l : List (String × ℚ))
    (h : ∀ kv ∈ l, S kv.1 = kv.2) :
    List.Chain' (fun x y => y.2 = some ((S y.1 - S x.1) / S x.1)) (variation l) := by
  cases l with
  | nil => simp [variation]
  | cons kv t =>
    obtain ⟨p, w⟩ := kv
    exact terra_chain_varAux S t (p, none) w (h (p, w) (List.mem_cons_self _ _))
      (fun kv hk => h kv (List.mem_cons_of_mem _ hk))

/-- Projecting rows to `(period, weight)` pairs turns `valAt` into the
per-period weight sum. -/
theorem terra_valAt_pairs (rows : List Row) (p : String) :
    valAt (rows.map (fun r => (r.period, r.weight))) p = wSum rows p := by
  induction rows with
  | nil => rfl
  | cons r t ih =>
    by_cases h : r.period = p
    · rw [List.map_cons, terra_valAt_cons, ih, if_pos h]
      simp [wSum, List.filter_cons, h]
    · rw [List.map_cons, terra_valAt_cons, ih, if_neg h]
      simp [wSum, List.filter_cons, h]

/-! ## Claim C9 -/

/-- Inversion of the success case of `analyze_basket` with `var = true`:
the result is the variation of the doubly-grouped per-period weights of the
filtered working set. -/
theorem terra_analyze_basket_var_ok (ds : TerraDataset) (country : String)
    (partner product : Option String) (direction : String)
    (res : List (String × Option ℚ)) (ds2 : TerraDataset)
    (h : analyze_basket ds country partner product true direction = (.ok res, ds2)) :
    res = variation (groupbySum (groupbySum
      ((basketRows ds.data country partner product direction).map
        (fun r => (r.period, r.weight))))) := by
  simp only [analyze_basket] at h
  split_ifs at h <;> simp at h <;>
    (obtain ⟨hres, hds⟩ := h
     subst hres
     simp [basketRows, *])

/-- C9: when `analyze_basket` is called with `var=true` and succeeds, the
output periods are strictly sorted ascending; the first period's value is
the missing value (`NaN` propagated from the lag), and every later period's
value is `(w(p) - w(prev)) / w(prev)` where `w` is the period's aggregated
weight over the filtered working set. -/
theorem C9_variation_output (ds : TerraDataset) (country : String)
    (partner product : Option String) (direction : String)
    (res : List (String × Option ℚ)) (ds2 : TerraDataset)
    (h : analyze_basket ds country partner product true direction = (.ok res, ds2)) :
    (res.map Prod.fst).Pairwise (· < ·) ∧
    (∀ z, res.head? = some z → z.2 = none) ∧
    List.Chain' (fun x y => y.2 = some
      ((wSum (basketRows ds.data country partner product direction) y.1
          - wSum (basketRows ds.data country partner product direction) x.1)
        / wSum (basketRows ds.data country partner product direction) x.1)) res := by
  have hres := terra_analyze_basket_var_ok ds country partner product direction res ds2 h
  subst hres
  refine ⟨?_, ?_, ?_⟩
  · rw [terra_variation_keys]
    exact terra_sorted_groupbySum _
  · intro z hz
    exact terra_variation_head _ z hz
  · apply terra_chain_variation
    intro kv hkv
    have h1 := terra_valAt_mem_nodup _ kv.1 kv.2
      (List.Pairwise.imp (fun hab => ne_of_lt hab) (terra_sorted_groupbySum _))
      (by simpa using hkv)
    rw [terra_valAt_groupbySum, terra_valAt_groupbySum, terra_valAt_pairs] at h1
    exact h1

/-- Witness for C9: on two rows with periods 2021 and 2020 (given out of
order, weights 6 and 4), the successful `var=true` call returns the sorted
periods with a missing first value and variation `(6-4)/4 = 1/2`, and the
chain property of `C9_variation_output` holds at that output. -/
theorem C9_variation_output_witness :
    (analyze_basket c9ds "A" none none true "E").1
      = .ok [("2020", (none : Option ℚ)), ("2021", some ((1 : ℚ) / 2))] ∧
    List.Chain' (fun x y => y.2 = some
      ((wSum (basketRows c9ds.data "A" none none "E") y.1
          - wSum (basketRows c9ds.data "A" none none "E") x.1)
        / wSum (basketRows c9ds.data "A" none none "E") x.1))
      [("2020", (none : Option ℚ)), ("2021", some ((1 : ℚ) / 2))] := by
  have hlt : ("2020" : String) < "2021" := by
    simp
    decide
  have hnlt : ¬ (("2021" : String) < "2020") := by
    simp
    decide
  have h1 : (analyze_basket c9ds "A" none none true "E").1
      = .ok [("2020", (none : Option ℚ)), ("2021", some ((1 : ℚ) / 2))] := by
    simp [analyze_basket, c9ds, c9rows, groupbySum, insertAdd, variation,
      varAux, swapRow, hlt, hnlt]
    norm_num
  have h : analyze_basket c9ds "A" none none true "E"
      = (.ok [("2020", (none : Option ℚ)), ("2021", some ((1 : ℚ) / 2))],
         (analyze_basket c9ds "A" none none true "E").2) :=
    Prod.ext h1 rfl
  exact ⟨h1, (C9_variation_output c9ds "A" none none "E" _ _ h).2.2⟩
